import Mathlib

/-!
Verification of the blob-archiver ingestion orchestrator and retrieval API.

The archiver side (`persistBlobsForBlockToS3`, `backfillBlobs`,
`processBlocksUntilKnownBlock`, `Start`) is embedded from
`archiver/service` (shown in `archiver/cmd/main.go`'s compilation unit).
External collaborators (beacon chain client, storage backend) are modelled
as explicit state: the chain is a pure resolution function, storage is the
list of stored hashes, and transient network failures are injected through
an explicit failure schedule consumed one entry per beacon-client call.
Traces (writes, sidecar fetches, sleeps) are recorded so that claims about
calls *not* being made are expressible.
-/

namespace BlobArchiver

/-- A beacon block header, as read by the orchestrator: its own root hash and
its parent's root hash (`Header.Message.ParentRoot` in the source). Hashes are
modelled as naturals. -/
structure BeaconBlockHeader where
  root : Nat
  parentRoot : Nat
deriving DecidableEq, Repr

/-- One blob sidecar entry: a position index and opaque byte contents. -/
structure Blob where
  index : Nat
  bytes : List Nat
deriving DecidableEq, Repr

/-- `storage.BlobData`: the archived record, keyed by the beacon block hash. -/
structure BlobData where
  beaconBlockHash : Nat
  blobs : List Blob
deriving DecidableEq, Repr

/-- A block identifier as passed to `persistBlobsForBlockToS3`: the archiver
only ever uses the literal `"head"` or a parent root hash rendered as a hex
string. -/
inductive BlockId where
  | head
  | hash (h : Nat)
deriving DecidableEq, Repr

/-- The beacon chain as seen through the client: the current head header,
header lookup by root hash, and blob sidecars by block root. -/
structure Chain where
  head : BeaconBlockHeader
  byHash : Nat → Option BeaconBlockHeader
  sidecars : Nat → List Blob

/-- The observable state threaded through the orchestrator: the set of stored
block hashes (the storage backend), the ordered trace of `Write` calls, the
trace of retry sleeps (in seconds), the trace of blob-sidecar fetches, and
the remaining schedule of injected external-call failures. One schedule
entry is consumed per external call — beacon-client header fetch, storage
`Exists`, beacon-client sidecar fetch, storage `Write`, in the order the
source makes them — so both chain-client and storage failures are
expressible; an empty schedule means every call succeeds. -/
structure ArchState where
  stored : List Nat
  writes : List BlobData
  sleeps : List Nat
  sidecarFetches : List Nat
  fetchFail : List Bool
deriving DecidableEq, Repr

/-- Consume one entry of the failure schedule. -/
def schedStep (sched : List Bool) : Bool × List Bool :=
  match sched with
  | [] => (false, [])
  | b :: rest => (b, rest)

/-- Resolve a block identifier through the beacon client
(`BeaconBlockHeader` call in the source). -/
def resolveId (c : Chain) (id : BlockId) : Option BeaconBlockHeader :=
  match id with
  | .head => some c.head
  | .hash h => c.byHash h

/-- One beacon-client header fetch: may fail per the schedule, or fail
because the identifier does not resolve. -/
def fetchHeader (c : Chain) (s : ArchState) (id : BlockId) :
    Except Unit BeaconBlockHeader × ArchState :=
  let b := (schedStep s.fetchFail).fst
  let s1 := { s with fetchFail := (schedStep s.fetchFail).snd }
  if b then (.error (), s1)
  else
    match resolveId c id with
    | none => (.error (), s1)
    | some hdr => (.ok hdr, s1)

/-- One beacon-client blob-sidecars fetch for block root `h`; the attempt is
recorded in the trace whether or not it succeeds. -/
def fetchSidecars (c : Chain) (s : ArchState) (h : Nat) :
    Except Unit (List Blob) × ArchState :=
  let b := (schedStep s.fetchFail).fst
  let s1 := { s with fetchFail := (schedStep s.fetchFail).snd,
                     sidecarFetches := s.sidecarFetches ++ [h] }
  if b then (.error (), s1) else (.ok (c.sidecars h), s1)

/-- One storage `Exists` call for block hash `h`: may fail per the schedule
(a storage I/O failure), otherwise reports membership in the stored set. -/
def existsCheck (s : ArchState) (h : Nat) : Except Unit Bool × ArchState :=
  let b := (schedStep s.fetchFail).fst
  let s1 := { s with fetchFail := (schedStep s.fetchFail).snd }
  if b then (.error (), s1) else (.ok (decide (h ∈ s1.stored)), s1)

/-- One storage `Write` call: may fail per the schedule (a storage I/O
failure), otherwise persists the record under its block hash and appends it
to the write trace. -/
def writeRecord (s : ArchState) (rec : BlobData) : Except Unit Unit × ArchState :=
  let b := (schedStep s.fetchFail).fst
  let s1 := { s with fetchFail := (schedStep s.fetchFail).snd }
  if b then (.error (), s1)
  else (.ok (), { s1 with stored := s1.stored ++ [rec.beaconBlockHash],
                          writes := s1.writes ++ [rec] })

/-- Embedding of `ArchiverService.persistBlobsForBlockToS3`: fetch the header
for the identifier; check `Exists(header.root)`; if it exists return
`(header, true)` without touching blobs; otherwise fetch the sidecars for the
header's root, build a `BlobData` keyed by that root, `Write` it, and return
`(header, false)`. Any failure — beacon-client header or sidecar fetch,
storage `Exists` or `Write` — propagates to the caller as an error with no
retry, exactly as each early `return nil, false, err` does in the source. -/
def persistBlobsForBlockToS3 (c : Chain) (s : ArchState) (id : BlockId) :
    Except Unit (BeaconBlockHeader × Bool) × ArchState :=
  match fetchHeader c s id with
  | (.error e, s1) => (.error e, s1)
  | (.ok hdr, s1) =>
    match existsCheck s1 hdr.root with
    | (.error e, s2) => (.error e, s2)
    | (.ok true, s2) => (.ok (hdr, true), s2)
    | (.ok false, s2) =>
      match fetchSidecars c s2 hdr.root with
      | (.error e, s3) => (.error e, s3)
      | (.ok blobs, s3) =>
        match writeRecord s3 { beaconBlockHash := hdr.root, blobs := blobs } with
        | (.error e, s4) => (.error e, s4)
        | (.ok _, s4) => (.ok (hdr, false), s4)

/-- `backfillErrorRetryInterval = 5 * time.Second`, in seconds. -/
def backfillErrorRetryInterval : Nat := 5

/-- How a backfill run ended: the current block's root equalled the
configured origin block, or a fetch-and-persist reported that the block
already existed. These are the only two constructors because the source loop
`for !alreadyExists { if current.Root == originBlock { return } ... }` has
exactly these two exits. -/
inductive BackfillResult where
  | reachedOrigin (endHash : Nat)
  | metKnown (endHash : Nat)
deriving DecidableEq, Repr

/-- Embedding of `ArchiverService.backfillBlobs`, fuel-indexed. Each
iteration first compares the current header's root against the origin block;
otherwise it fetch-and-persists the current header's parent. On error the
current pointer is not advanced: a `backfillErrorRetryInterval` sleep is
recorded and the same parent is retried. `none` means the fuel ran out with
the loop still running. -/
def backfillBlobs (c : Chain) (origin : Nat) :
    Nat → BeaconBlockHeader → ArchState → Option BackfillResult × ArchState
  | 0, _, s => (none, s)
  | fuel+1, current, s =>
    if current.root = origin then (some (.reachedOrigin current.root), s)
    else
      match persistBlobsForBlockToS3 c s (.hash current.parentRoot) with
      | (.error _, s1) =>
        backfillBlobs c origin fuel current
          { s1 with sleeps := s1.sleeps ++ [backfillErrorRetryInterval] }
      | (.ok (hdr, true), s1) => (some (.metKnown hdr.root), s1)
      | (.ok (hdr, false), s1) => backfillBlobs c origin fuel hdr s1

/-- How one live-tracking poll ended: a fetch-and-persist error aborts the
whole inner loop, and `alreadyExisted = true` means live tracking converged
with stored history. These are the only two constructors because the source
loop has exactly these two exits — in particular it never consults the
configured origin block. -/
inductive PollResult where
  | aborted
  | converged (endHash : Nat)
deriving DecidableEq, Repr

/-- Embedding of `ArchiverService.processBlocksUntilKnownBlock`'s inner loop,
fuel-indexed, starting from a given identifier (the source starts at
`"head"`). Persist the current identifier; on error return immediately
(abort, no retry); if it already existed stop; otherwise advance to the
parent identifier. `none` means the fuel ran out with the loop still
walking. -/
def processBlocksUntilKnownBlock (c : Chain) :
    Nat → BlockId → ArchState → Option PollResult × ArchState
  | 0, _, s => (none, s)
  | fuel+1, id, s =>
    match persistBlobsForBlockToS3 c s id with
    | (.error _, s1) => (some .aborted, s1)
    | (.ok (hdr, true), s1) => (some (.converged hdr.root), s1)
    | (.ok (hdr, false), s1) =>
      processBlocksUntilKnownBlock c fuel (.hash hdr.parentRoot) s1

/-- Outcome of `ArchiverService.Start`'s seeding step: `seedFailed` models
`Start` returning the error from the initial `persistBlobsForBlockToS3(ctx,
"head")` (which `main` treats as fatal), `seeded` models proceeding to launch
backfill and live tracking with the seed header. -/
inductive StartResult where
  | seedFailed
  | seeded (h : BeaconBlockHeader)
deriving DecidableEq, Repr

/-- Embedding of the seeding step of `ArchiverService.Start`: the very first
fetch-and-persist of `"head"`; its error is returned from `Start` rather than
retried. -/
def startArchiver (c : Chain) (s : ArchState) : StartResult × ArchState :=
  match persistBlobsForBlockToS3 c s .head with
  | (.error _, s1) => (.seedFailed, s1)
  | (.ok (hdr, _), s1) => (.seeded hdr, s1)

/-- The record that `persistBlobsForBlockToS3` writes for a newly seen
header. -/
def blobRecordOf (c : Chain) (hdr : BeaconBlockHeader) : BlobData :=
  { beaconBlockHash := hdr.root, blobs := c.sidecars hdr.root }

/-- Syntactic class of a raw block-identifier string. -/
inductive BlockIdClass where
  | contentHash
  | position
  | namedAlias
  | invalid
deriving DecidableEq, Repr

/-- Modelled from the spec: hexadecimal digit test (case-insensitive) used by
the identifier resolver's `isHash`, whose implementation is not in the shown
sources (only `api_test.go` is). -/
def isHexDigit (ch : Char) : Bool :=
  ch.isDigit || (('a' ≤ ch) && (ch ≤ 'f')) || (('A' ≤ ch) && (ch ≤ 'F'))

/-- Modelled from the spec: `isHash` of the API's identifier resolver (the
`api/service` implementation file is not among the shown sources; only its
tests are). A string is a content hash when it is `0x` followed by exactly 64
hexadecimal characters, case-insensitive. -/
def isHash (s : String) : Bool :=
  match s.toList with
  | '0' :: 'x' :: rest => rest.length == 64 && rest.all isHexDigit
  | _ => false

/-- Modelled from the spec: `isSlot` of the API's identifier resolver — one
or more decimal digits only. -/
def isSlot (s : String) : Bool :=
  !s.toList.isEmpty && s.toList.all Char.isDigit

/-- Modelled from the spec: `isKnownIdentifier` of the API's identifier
resolver — exactly one of the named aliases `"genesis"`, `"finalized"`,
`"head"`. -/
def isKnownIdentifier (s : String) : Bool :=
  s == "genesis" || s == "finalized" || s == "head"

/-- Modelled from the spec: the resolver's classification of a raw string,
applied in priority order — content hash, then numeric position, then named
alias, else invalid. -/
def classifyBlockId (s : String) : BlockIdClass :=
  if isHash s then .contentHash
  else if isSlot s then .position
  else if isKnownIdentifier s then .namedAlias
  else .invalid

/-- Outcome of the retrieval route for one request: HTTP status, error
message (empty on success), returned blob sequence, and whether the chain
client was consulted at all. -/
structure BlobResponse where
  status : Nat
  errMessage : String
  data : List Blob
  contactedChain : Bool
deriving DecidableEq, Repr

/-- Modelled from the spec: the optional `indices` filter of the retrieval
route — keep exactly the entries whose position index is in the requested
set, preserving original order; absent parameter keeps everything. -/
def filterByIndices (blobs : List Blob) (indices : Option (List Nat)) : List Blob :=
  match indices with
  | none => blobs
  | some set => blobs.filter (fun b => decide (b.index ∈ set))

/-- Modelled from the spec: the blob-sidecars retrieval handler (the
`api/service` implementation file is not among the shown sources; only
`api_test.go` is). Classify the raw identifier — invalid yields 400
`"invalid block id: <raw>"` without contacting the chain client; then
resolve through the chain client — unresolvable yields 404
`"Block not found"`; then read storage — a missing record yields the same
404; otherwise apply the indices filter and answer 200. `resolve` is the
chain client's identifier resolution and `store` the storage backend's
read, both external collaborators. -/
def handleBlobSidecars (resolve : String → Option Nat)
    (store : Nat → Option (List Blob)) (rawId : String)
    (indices : Option (List Nat)) : BlobResponse :=
  if classifyBlockId rawId = .invalid then
    { status := 400, errMessage := "invalid block id: " ++ rawId,
      data := [], contactedChain := false }
  else
    match resolve rawId with
    | none => { status := 404, errMessage := "Block not found",
                data := [], contactedChain := true }
    | some root =>
      match store root with
      | none => { status := 404, errMessage := "Block not found",
                  data := [], contactedChain := true }
      | some blobs =>
        { status := 200, errMessage := "",
          data := filterByIndices blobs indices, contactedChain := true }

/-- Modelled from the spec: compact binary encoding of one blob record — the
codec itself is an external standardized format, so it is modelled as a
concrete length-prefixed layout: position index, byte count, then the bytes. -/
def encodeBlobBinary (b : Blob) : List Nat :=
  b.index :: b.bytes.length :: b.bytes

/-- Modelled from the spec: compact binary encoding of a blob sequence —
the concatenation of the per-blob encodings. -/
def encodeBlobsBinary : List Blob → List Nat
  | [] => []
  | b :: rest => encodeBlobBinary b ++ encodeBlobsBinary rest

/-- Modelled from the spec: fuel-indexed decoder for the compact binary
form. -/
def decodeBlobsBinaryAux : Nat → List Nat → Option (List Blob)
  | _, [] => some []
  | 0, _ :: _ => none
  | _+1, [_] => none
  | fuel+1, i :: n :: rest =>
    if rest.length < n then none
    else
      match decodeBlobsBinaryAux fuel (rest.drop n) with
      | none => none
      | some bs => some (⟨i, rest.take n⟩ :: bs)

/-- Modelled from the spec: decoder for the compact binary form. -/
def decodeBlobsBinary (l : List Nat) : Option (List Blob) :=
  decodeBlobsBinaryAux l.length l

/-- A structured textual value (the model of the JSON-style encoding). -/
inductive JsonVal where
  | num (n : Nat)
  | arr (xs : List JsonVal)

/-- Modelled from the spec: textual structured encoding of one blob record. -/
def encodeBlobJson (b : Blob) : JsonVal :=
  .arr [.num b.index, .arr (b.bytes.map .num)]

/-- Modelled from the spec: textual structured encoding of a blob sequence. -/
def encodeBlobsJson (bs : List Blob) : JsonVal :=
  .arr (bs.map encodeBlobJson)

/-- Decode a textual value expected to be a number. -/
def decodeNum : JsonVal → Option Nat
  | .num n => some n
  | _ => none

/-- Decode a list of textual values expected to all be numbers. -/
def decodeNums : List JsonVal → Option (List Nat)
  | [] => some []
  | x :: rest =>
    match decodeNum x, decodeNums rest with
    | some n, some ns => some (n :: ns)
    | _, _ => none

/-- Modelled from the spec: decoder for the textual form of one blob. -/
def decodeBlobJson : JsonVal → Option Blob
  | .arr [.num i, .arr bytes] =>
    match decodeNums bytes with
    | some ns => some ⟨i, ns⟩
    | none => none
  | _ => none

/-- Decode a list of textual blob values. -/
def decodeBlobsJsonAux : List JsonVal → Option (List Blob)
  | [] => some []
  | x :: rest =>
    match decodeBlobJson x, decodeBlobsJsonAux rest with
    | some b, some bs => some (b :: bs)
    | _, _ => none

/-- Modelled from the spec: decoder for the textual form of a blob
sequence. -/
def decodeBlobsJson : JsonVal → Option (List Blob)
  | .arr xs => decodeBlobsJsonAux xs
  | _ => none

/-- The binary media type of the content negotiation. -/
def octetStreamMediaType : String := "application/octet-stream"

/-- An encoded response body: either the compact binary payload or the
textual structured payload. -/
inductive EncodedBody where
  | binary (payload : List Nat)
  | textual (payload : JsonVal)

/-- Modelled from the spec: content negotiation — an `Accept` header equal to
the binary media type selects the compact binary encoding, anything else
(including an absent header, passed as any other string) selects the textual
encoding. -/
def encodeResponse (accept : String) (bs : List Blob) : EncodedBody :=
  if accept == octetStreamMediaType then .binary (encodeBlobsBinary bs)
  else .textual (encodeBlobsJson bs)

/-- Decode an encoded response body back into a blob sequence. -/
def decodeResponse : EncodedBody → Option (List Blob)
  | .binary p => decodeBlobsBinary p
  | .textual p => decodeBlobsJson p

/-- A concrete header used by the concrete instances below: root 10, parent 11. -/
def hdrA : BeaconBlockHeader := ⟨10, 11⟩

/-- A concrete header: root 11, parent 12. -/
def hdrB : BeaconBlockHeader := ⟨11, 12⟩

/-- A concrete header: root 12, parent 13. -/
def hdrC : BeaconBlockHeader := ⟨12, 13⟩

/-- A concrete three-block chain `hdrA → hdrB → hdrC` with head `hdrA`. -/
def chainW : Chain :=
  { head := hdrA
    byHash := fun h =>
      if h = 10 then some hdrA
      else if h = 11 then some hdrB
      else if h = 12 then some hdrC
      else none
    sidecars := fun h => [⟨0, [h]⟩, ⟨1, [h, h]⟩] }

/-- The initial orchestrator state: empty storage, empty traces, no injected
failures. -/
def emptyState : ArchState := ⟨[], [], [], [], []⟩

/-- A concrete unbounded chain: block `h`'s parent is `h+1`, head is root 0. -/
def chainInf : Chain :=
  { head := ⟨0, 1⟩
    byHash := fun h => some ⟨h, h + 1⟩
    sidecars := fun _ => [] }

/-- The ancestor sequence of `chainW` starting at `hdrA`. -/
def fW : Nat → BeaconBlockHeader :=
  fun i => if i = 0 then hdrA else if i = 1 then hdrB else hdrC

/-- An initial state whose failure schedule makes exactly the first
beacon-client call fail. -/
def failSchedState : ArchState := ⟨[], [], [], [], [true]⟩

/-- A concrete two-blob record used by the API instances. -/
def blobsW : List Blob := [⟨0, [1]⟩, ⟨1, [2]⟩]

/-- A concrete chain-client resolution for the API instances: `"head"`
resolves to root 12, slot `"1234"` to root 11, everything else is
unresolvable. -/
def resolveW : String → Option Nat :=
  fun s => if s = "head" then some 12 else if s = "1234" then some 11 else none

/-- A concrete storage read for the API instances: only root 11 has a
record. -/
def storeW : Nat → Option (List Blob) :=
  fun h => if h = 11 then some blobsW else none

/-- The ancestor sequence of `chainInf`: block `i` has parent `i+1`. -/
def fInf : Nat → BeaconBlockHeader := fun i => ⟨i, i + 1⟩

end BlobArchiver

namespace BlobArchiver

/-- Rebuilding an `ArchState` with an unchanged failure schedule is the
identity. -/
theorem ArchState.withFetchFail_self (s : ArchState) (h : s.fetchFail = []) :
    ({ s with fetchFail := [] } : ArchState) = s := by
  cases s
  cases h
  rfl

/-- C1: for every block identifier, `persistBlobsForBlockToS3` first fetches
the header and then checks existence of `header.root` in storage: when the
record exists it returns `(header, true)` having fetched no blob contents and
written nothing (the state is unchanged); when it does not exist it fetches
the blob contents for the header's root, writes the record keyed by that
root, and returns `(header, false)`. -/
theorem persistBlobsForBlockToS3_spec (c : Chain) (s : ArchState) (id : BlockId)
    (hdr : BeaconBlockHeader)
    (hsched : s.fetchFail = [])
    (hres : resolveId c id = some hdr) :
    (hdr.root ∈ s.stored →
      persistBlobsForBlockToS3 c s id = (.ok (hdr, true), s)) ∧
    (hdr.root ∉ s.stored →
      persistBlobsForBlockToS3 c s id =
        (.ok (hdr, false),
         { s with stored := s.stored ++ [hdr.root],
                  writes := s.writes ++ [blobRecordOf c hdr],
                  sidecarFetches := s.sidecarFetches ++ [hdr.root] })) := by
  obtain ⟨st, w, sl, sf, ff⟩ := s
  obtain rfl : ff = [] := hsched
  constructor <;> intro hmem <;>
    simp [persistBlobsForBlockToS3, fetchHeader, fetchSidecars, existsCheck,
      writeRecord, schedStep, hres, hmem, blobRecordOf]

/-- Witness for C1: on the concrete chain, persisting `head` from empty
storage writes the head's record; persisting block 11 when its hash is
already stored returns `alreadyExisted = true` and leaves the state
untouched. -/
theorem persistBlobsForBlockToS3_spec_witness :
    persistBlobsForBlockToS3 chainW emptyState .head =
      (.ok (hdrA, false),
       { emptyState with stored := emptyState.stored ++ [hdrA.root],
                         writes := emptyState.writes ++ [blobRecordOf chainW hdrA],
                         sidecarFetches := emptyState.sidecarFetches ++ [hdrA.root] }) ∧
    persistBlobsForBlockToS3 chainW ⟨[11], [], [], [], []⟩ (.hash 11) =
      (.ok (hdrB, true), ⟨[11], [], [], [], []⟩) := by
  constructor
  · exact (persistBlobsForBlockToS3_spec chainW emptyState .head hdrA rfl rfl).2
      (by simp [emptyState])
  · exact (persistBlobsForBlockToS3_spec chainW ⟨[11], [], [], [], []⟩ (.hash 11) hdrB rfl
      (by simp [resolveId, chainW, hdrB])).1 (by simp [hdrB])

/-- An error-free backfill run over `N` unstored ancestors: the loop walks
parent links, persists each ancestor in order, and stops when the origin
block is reached. -/
theorem backfillBlobs_clean_aux (c : Chain) (origin : Nat) :
    ∀ (N : Nat) (f : Nat → BeaconBlockHeader) (s : ArchState),
      s.fetchFail = [] →
      (∀ i, i < N → c.byHash (f i).parentRoot = some (f (i + 1))) →
      (f N).root = origin →
      (∀ i, i < N → (f i).root ≠ origin) →
      (∀ i, 1 ≤ i → i ≤ N → (f i).root ∉ s.stored) →
      (∀ i j, 1 ≤ i → i ≤ N → 1 ≤ j → j ≤ N → (f i).root = (f j).root → i = j) →
      ∀ k, backfillBlobs c origin (k + N + 1) (f 0) s =
        (some (.reachedOrigin origin),
         { s with
             stored := s.stored ++ (List.range N).map (fun i => (f (i + 1)).root),
             writes := s.writes ++ (List.range N).map (fun i => blobRecordOf c (f (i + 1))),
             sidecarFetches :=
               s.sidecarFetches ++ (List.range N).map (fun i => (f (i + 1)).root) }) := by
  intro N
  induction N with
  | zero =>
    intro f s hsched hres horig hne hst hinj k
    simp [backfillBlobs, horig]
  | succ N ih =>
    intro f s hsched hres horig hne hst hinj k
    obtain ⟨st, w, sl, sf, ff⟩ := s
    obtain rfl : ff = [] := hsched
    have h0 : ¬ (f 0).root = origin := hne 0 (Nat.succ_pos N)
    have hres0 : c.byHash (f 0).parentRoot = some (f 1) := hres 0 (Nat.succ_pos N)
    have hmem1 : (f 1).root ∉ st := hst 1 (by omega) (by omega)
    simp only [backfillBlobs]
    rw [if_neg h0]
    simp only [persistBlobsForBlockToS3, fetchHeader, fetchSidecars, existsCheck,
      writeRecord, schedStep, resolveId, hres0]
    simp only [ite_false, Bool.false_eq_true, if_false]
    simp [hmem1, blobRecordOf]
    have hstep := ih (fun i => f (i + 1))
      ⟨st ++ [(f 1).root], w ++ [blobRecordOf c (f 1)], sl, sf ++ [(f 1).root], []⟩
      rfl
      (fun i hi => hres (i + 1) (by omega))
      horig
      (fun i hi => hne (i + 1) (by omega))
      (fun i hi1 hi2 hmem => by
        rcases List.mem_append.mp hmem with h | h
        · exact hst (i + 1) (by omega) (by omega) h
        · have := hinj (i + 1) 1 (by omega) (by omega) (by omega) (by omega)
            (List.mem_singleton.mp h)
          omega)
      (fun i j hi1 hi2 hj1 hj2 heq => by
        have := hinj (i + 1) (j + 1) (by omega) (by omega) (by omega) (by omega) heq
        omega)
      k
    refine hstep.trans ?_
    simp [blobRecordOf, List.range_succ_eq_map, List.map_map, Function.comp,
      Nat.succ_eq_add_one]

/-- C2: an error-free backfill run from a seed whose ancestor chain reaches
the configured origin hash in `N` steps, with none of those `N` ancestors
already stored, persists exactly those `N` ancestor blocks in walk order and
terminates by reaching the origin hash; the result holds for every
sufficient fuel, so no further fetch-and-persist calls are made after
termination. Reaching the origin and `alreadyExisted = true` are the only
two constructors of `BackfillResult`, i.e. the loop's only termination
conditions. -/
theorem backfillBlobs_clean_run (c : Chain) (origin : Nat) (N fuel : Nat)
    (f : Nat → BeaconBlockHeader) (s : ArchState)
    (hsched : s.fetchFail = [])
    (hres : ∀ i, i < N → c.byHash (f i).parentRoot = some (f (i + 1)))
    (horig : (f N).root = origin)
    (hne : ∀ i, i < N → (f i).root ≠ origin)
    (hst : ∀ i, 1 ≤ i → i ≤ N → (f i).root ∉ s.stored)
    (hinj : ∀ i j, 1 ≤ i → i ≤ N → 1 ≤ j → j ≤ N → (f i).root = (f j).root → i = j)
    (hfuel : N + 1 ≤ fuel) :
    backfillBlobs c origin fuel (f 0) s =
      (some (.reachedOrigin origin),
       { s with
           stored := s.stored ++ (List.range N).map (fun i => (f (i + 1)).root),
           writes := s.writes ++ (List.range N).map (fun i => blobRecordOf c (f (i + 1))),
           sidecarFetches :=
             s.sidecarFetches ++ (List.range N).map (fun i => (f (i + 1)).root) }) := by
  obtain ⟨k, rfl⟩ : ∃ k, fuel = k + N + 1 := ⟨fuel - (N + 1), by omega⟩
  exact backfillBlobs_clean_aux c origin N f s hsched hres horig hne hst hinj k

/-- Witness for C2: on the concrete chain `hdrA → hdrB → hdrC` with origin
hash 12 and empty storage, backfill persists exactly the two ancestors
`hdrB`, `hdrC` and reports that it reached the origin. -/
theorem backfillBlobs_clean_run_witness :
    backfillBlobs chainW 12 3 (fW 0) emptyState =
      (some (.reachedOrigin 12),
       { emptyState with
           stored := emptyState.stored ++ (List.range 2).map (fun i => (fW (i + 1)).root),
           writes := emptyState.writes ++
             (List.range 2).map (fun i => blobRecordOf chainW (fW (i + 1))),
           sidecarFetches := emptyState.sidecarFetches ++
             (List.range 2).map (fun i => (fW (i + 1)).root) }) := by
  refine backfillBlobs_clean_run chainW 12 2 3 fW emptyState rfl ?_ (by decide) ?_ ?_ ?_
    (by decide)
  · intro i hi
    interval_cases i <;> decide
  · intro i hi
    interval_cases i <;> decide
  · intro i hi1 hi2
    interval_cases i <;> simp [emptyState]
  · intro i j hi1 hi2 hj1 hj2 heq
    interval_cases i <;> interval_cases j <;> simp_all [fW, hdrB, hdrC]

/-- C3: a live-tracking poll starts at `"head"`; when storage already holds
the parent of head (but not head itself) and no call fails, the inner loop
persists exactly one new block — the head — and stops with
`alreadyExisted = true` on the parent, for any sufficient fuel; and whenever
a fetch-and-persist call fails, the whole inner loop returns immediately in
the aborted state, with no retry, no sleep, and no further writes (the state
changes only by consuming the failed schedule entry). -/
theorem processBlocksUntilKnownBlock_spec :
    (∀ (c : Chain) (s : ArchState) (hp : BeaconBlockHeader) (k : Nat),
       s.fetchFail = [] →
       c.head.root ∉ s.stored →
       c.byHash c.head.parentRoot = some hp →
       hp.root ∈ s.stored →
       processBlocksUntilKnownBlock c (k + 1 + 1) .head s =
         (some (.converged hp.root),
          { s with stored := s.stored ++ [c.head.root],
                   writes := s.writes ++ [blobRecordOf c c.head],
                   sidecarFetches := s.sidecarFetches ++ [c.head.root] })) ∧
    (∀ (c : Chain) (id : BlockId) (s : ArchState) (rest : List Bool) (fuel : Nat),
       s.fetchFail = true :: rest →
       processBlocksUntilKnownBlock c (fuel + 1) id s =
         (some .aborted, { s with fetchFail := rest })) := by
  constructor
  · intro c s hp k hsched hhead hres hmem
    obtain ⟨st, w, sl, sf, ff⟩ := s
    obtain rfl : ff = [] := hsched
    have hmem2 : hp.root ∈ st ++ [c.head.root] := List.mem_append.mpr (Or.inl hmem)
    simp [processBlocksUntilKnownBlock, persistBlobsForBlockToS3, fetchHeader,
      fetchSidecars, existsCheck, writeRecord, schedStep, resolveId, hres, hhead,
      hmem2, blobRecordOf]
  · intro c id s rest fuel hsched
    obtain ⟨st, w, sl, sf, ff⟩ := s
    obtain rfl : ff = true :: rest := hsched
    simp [processBlocksUntilKnownBlock, persistBlobsForBlockToS3, fetchHeader,
      schedStep]

/-- Witness for C3: with storage holding exactly the parent of head (root
11), one poll on the concrete chain persists only the head (root 10) and
converges; and a poll whose first call fails aborts immediately, leaving
only the consumed schedule entry. -/
theorem processBlocksUntilKnownBlock_spec_witness :
    processBlocksUntilKnownBlock chainW 2 .head ⟨[11], [], [], [], []⟩ =
      (some (.converged 11),
       ⟨[11, 10], [blobRecordOf chainW hdrA], [], [10], []⟩) ∧
    processBlocksUntilKnownBlock chainW 1 .head failSchedState =
      (some .aborted, emptyState) := by
  constructor
  · exact processBlocksUntilKnownBlock_spec.1 chainW ⟨[11], [], [], [], []⟩ hdrB 0
      rfl (by decide) rfl (by decide)
  · exact processBlocksUntilKnownBlock_spec.2 chainW .head failSchedState [] 0 rfl

/-- C4: a fetch-and-persist error during backfill does not advance the
current position — the loop records exactly one fixed five-second sleep,
consumes the failure, and retries the very same parent; consequently a
chain-client failure that happens exactly once for a given parent and then
succeeds results in that parent being persisted with no gap after exactly
one retry-interval delay. -/
theorem backfillBlobs_error_retry :
    (∀ (c : Chain) (origin : Nat) (current : BeaconBlockHeader) (s : ArchState)
       (rest : List Bool) (fuel : Nat),
       s.fetchFail = true :: rest →
       current.root ≠ origin →
       backfillBlobs c origin (fuel + 1) current s =
         backfillBlobs c origin fuel current
           { s with fetchFail := rest,
                    sleeps := s.sleeps ++ [backfillErrorRetryInterval] }) ∧
    (∀ (c : Chain) (origin : Nat) (current hp : BeaconBlockHeader) (s : ArchState)
       (fuel : Nat),
       s.fetchFail = [true] →
       current.root ≠ origin →
       c.byHash current.parentRoot = some hp →
       hp.root ∉ s.stored →
       backfillBlobs c origin (fuel + 1 + 1) current s =
         backfillBlobs c origin fuel hp
           { s with fetchFail := [],
                    sleeps := s.sleeps ++ [backfillErrorRetryInterval],
                    stored := s.stored ++ [hp.root],
                    writes := s.writes ++ [blobRecordOf c hp],
                    sidecarFetches := s.sidecarFetches ++ [hp.root] }) := by
  constructor
  · intro c origin current s rest fuel hsched hne
    obtain ⟨st, w, sl, sf, ff⟩ := s
    obtain rfl : ff = true :: rest := hsched
    simp [backfillBlobs, persistBlobsForBlockToS3, fetchHeader, schedStep, hne]
  · intro c origin current hp s fuel hsched hne hres hmem
    obtain ⟨st, w, sl, sf, ff⟩ := s
    obtain rfl : ff = [true] := hsched
    simp only [ArchState.stored] at hmem
    simp [backfillBlobs, persistBlobsForBlockToS3, fetchHeader, fetchSidecars,
      existsCheck, writeRecord, schedStep, resolveId, hne, hres, hmem, blobRecordOf]

/-- Witness for C4: on the concrete chain with origin 13, a single injected
failure makes the first persist of block 11 fail; the loop sleeps once for
five seconds and then persists the very same parent 11. -/
theorem backfillBlobs_error_retry_witness :
    backfillBlobs chainW 13 3 hdrA failSchedState =
      backfillBlobs chainW 13 1 hdrB
        ⟨[11], [blobRecordOf chainW hdrB], [backfillErrorRetryInterval], [11], []⟩ ∧
    backfillBlobs chainW 13 2 hdrA failSchedState =
      backfillBlobs chainW 13 1 hdrA
        ⟨[], [], [backfillErrorRetryInterval], [], []⟩ := by
  constructor
  · exact backfillBlobs_error_retry.2 chainW 13 hdrA hdrB failSchedState 1
      rfl (by decide) rfl (by decide)
  · exact backfillBlobs_error_retry.1 chainW 13 hdrA failSchedState [] 1
      rfl (by decide)

/-- C5 counterexample: the claim says no chain-client failure during
ingestion — including the very first fetch-and-persist of `"head"` performed
at startup — makes the orchestrator terminate with an error, but on a
concrete input where that first seed call fails, `Start` returns the error
(`seedFailed`), which `main` treats as fatal. -/
theorem startArchiver_seed_failure_counterexample :
    startArchiver chainW failSchedState = (.seedFailed, emptyState) := rfl

/-- C5 amended: every fetch-and-persist failure inside the two traversal
loops — whether the beacon-client header or sidecar fetch fails, or the
storage `Exists` or `Write` call fails (all four propagate identically from
`persistBlobsForBlockToS3`) — never terminates the orchestrator: backfill
keeps the same position, records one retry sleep and retries, and a
live-tracking poll merely ends early with a normal `aborted` result; but a
failure of the startup seed fetch-and-persist of `"head"` is returned from
`Start` as an error. -/
theorem ingestion_error_handling :
    (∀ (c : Chain) (origin : Nat) (current : BeaconBlockHeader)
       (s s1 : ArchState) (fuel : Nat),
       current.root ≠ origin →
       persistBlobsForBlockToS3 c s (.hash current.parentRoot) = (.error (), s1) →
       backfillBlobs c origin (fuel + 1) current s =
         backfillBlobs c origin fuel current
           { s1 with sleeps := s1.sleeps ++ [backfillErrorRetryInterval] }) ∧
    (∀ (c : Chain) (id : BlockId) (s s1 : ArchState) (fuel : Nat),
       persistBlobsForBlockToS3 c s id = (.error (), s1) →
       processBlocksUntilKnownBlock c (fuel + 1) id s = (some .aborted, s1)) ∧
    (∀ (c : Chain) (s s1 : ArchState),
       persistBlobsForBlockToS3 c s .head = (.error (), s1) →
       startArchiver c s = (.seedFailed, s1)) := by
  refine ⟨?_, ?_, ?_⟩
  · intro c origin current s s1 fuel hne hpersist
    simp only [backfillBlobs]
    rw [if_neg hne, hpersist]
  · intro c id s s1 fuel hpersist
    simp only [processBlocksUntilKnownBlock]
    rw [hpersist]
  · intro c s s1 hpersist
    simp only [startArchiver]
    rw [hpersist]

/-- Witness for the amended C5: concrete failing inputs covering both error
kinds — a storage `Exists` failure makes backfill sleep and retry the same
parent, a storage `Write` failure makes one poll abort normally after the
failed unit of work, and a storage `Exists` failure on the startup seed
makes `Start` return the error. -/
theorem ingestion_error_handling_witness :
    backfillBlobs chainW 13 2 hdrA ⟨[], [], [], [], [false, true]⟩ =
      backfillBlobs chainW 13 1 hdrA
        ⟨[], [], [backfillErrorRetryInterval], [], []⟩ ∧
    processBlocksUntilKnownBlock chainW 1 .head
        ⟨[], [], [], [], [false, false, false, true]⟩ =
      (some .aborted, ⟨[], [], [], [10], []⟩) ∧
    startArchiver chainW ⟨[], [], [], [], [false, true]⟩ =
      (.seedFailed, emptyState) := by
  refine ⟨?_, ?_, ?_⟩
  · exact ingestion_error_handling.1 chainW 13 hdrA
      ⟨[], [], [], [], [false, true]⟩ emptyState 1 (by decide) rfl
  · exact ingestion_error_handling.2.1 chainW .head
      ⟨[], [], [], [], [false, false, false, true]⟩ ⟨[], [], [], [10], []⟩ 0 rfl
  · exact ingestion_error_handling.2.2 chainW
      ⟨[], [], [], [], [false, true]⟩ emptyState rfl

/-- C6: identifier classification — `0x` plus exactly 64 hex characters
(case-insensitive) is a content hash; a nonempty string of decimal digits
only is a position; exactly `"genesis"`, `"finalized"`, `"head"` is a named
alias; everything else — including 64 hex characters without the `0x`
prefix, a hex string of the wrong length, and arbitrary words — is invalid,
and an invalid identifier is rejected without contacting the chain client.
The concrete cases are exactly those of `TestIsHash`, `TestIsSlot` and
`TestIsNamedIdentifier` in `api_test.go`, plus the claim's examples. -/
theorem identifier_classification :
    (isHash "0x1234567890abcdef1234567890abcdef1234567890abcdef1234567890abcdef" = true ∧
     isHash "0x1234567890abcdef1234567890abcdef1234567890abcdef1234567890abcdez" = false ∧
     isHash "1234567890abcdef1234567890abcdef1234567890abcdef1234567890abcdef" = false ∧
     isHash "genesis" = false ∧
     isHash "finalized" = false ∧
     isHash "123" = false ∧
     isHash "unknown" = false) ∧
    (isSlot "123" = true ∧
     isSlot "0x1234567890abcdef1234567890abcdef1234567890abcdef1234567890abcdef" = false ∧
     isSlot "genesis" = false ∧
     isSlot "finalized" = false ∧
     isSlot "unknown" = false) ∧
    (isKnownIdentifier "genesis" = true ∧
     isKnownIdentifier "finalized" = true ∧
     isKnownIdentifier "head" = true ∧
     isKnownIdentifier
       "0x1234567890abcdef1234567890abcdef1234567890abcdef1234567890abcdef" = false ∧
     isKnownIdentifier "123" = false ∧
     isKnownIdentifier "unknown" = false) ∧
    (classifyBlockId
       "0xABCDEF1234567890abcdef1234567890ABCDEF1234567890abcdef1234567890" =
       .contentHash ∧
     classifyBlockId "0" = .position ∧
     classifyBlockId "123" = .position ∧
     classifyBlockId "genesis" = .namedAlias ∧
     classifyBlockId "finalized" = .namedAlias ∧
     classifyBlockId "head" = .namedAlias ∧
     classifyBlockId
       "1234567890abcdef1234567890abcdef1234567890abcdef1234567890abcdef" = .invalid ∧
     classifyBlockId "0x1234567890abcdef123" = .invalid ∧
     classifyBlockId "foobar" = .invalid ∧
     classifyBlockId "" = .invalid) ∧
    (∀ (resolve : String → Option Nat) (store : Nat → Option (List Blob))
       (raw : String) (indices : Option (List Nat)),
       classifyBlockId raw = .invalid →
       (handleBlobSidecars resolve store raw indices).contactedChain = false) := by
  refine ⟨by decide, by decide, by decide, by decide, ?_⟩
  intro resolve store raw indices h
  simp [handleBlobSidecars, h]

/-- Witness for C6: the invalid identifier `"foobar"` is answered without
consulting the chain client. -/
theorem identifier_classification_witness :
    (handleBlobSidecars resolveW storeW "foobar" none).contactedChain = false :=
  identifier_classification.2.2.2.2 resolveW storeW "foobar" none (by decide)

/-- C7: a syntactically malformed identifier yields status 400 with message
`"invalid block id: <raw>"` and the chain client is not contacted; a valid
identifier the chain client cannot resolve yields 404 `"Block not found"`;
and a valid identifier that resolves to a header whose record is absent from
storage yields the identical 404 `"Block not found"`. -/
theorem handleBlobSidecars_error_spec :
    (∀ (resolve : String → Option Nat) (store : Nat → Option (List Blob))
       (raw : String) (indices : Option (List Nat)),
       classifyBlockId raw = .invalid →
       handleBlobSidecars resolve store raw indices =
         { status := 400, errMessage := "invalid block id: " ++ raw,
           data := [], contactedChain := false }) ∧
    (∀ (resolve : String → Option Nat) (store : Nat → Option (List Blob))
       (raw : String) (indices : Option (List Nat)),
       classifyBlockId raw ≠ .invalid →
       resolve raw = none →
       handleBlobSidecars resolve store raw indices =
         { status := 404, errMessage := "Block not found",
           data := [], contactedChain := true }) ∧
    (∀ (resolve : String → Option Nat) (store : Nat → Option (List Blob))
       (raw : String) (indices : Option (List Nat)) (root : Nat),
       classifyBlockId raw ≠ .invalid →
       resolve raw = some root →
       store root = none →
       handleBlobSidecars resolve store raw indices =
         { status := 404, errMessage := "Block not found",
           data := [], contactedChain := true }) := by
  refine ⟨?_, ?_, ?_⟩
  · intro resolve store raw indices h
    simp [handleBlobSidecars, h]
  · intro resolve store raw indices h hres
    simp [handleBlobSidecars, h, hres]
  · intro resolve store raw indices root h hres hstore
    simp [handleBlobSidecars, h, hres, hstore]

/-- Witness for C7: on the concrete resolver and storage, `"foobar"` yields
the 400 with the raw input in the message, a well-formed but unresolvable
content hash yields 404, and `"head"` — resolvable upstream but absent from
storage — yields the identical 404. -/
theorem handleBlobSidecars_error_spec_witness :
    handleBlobSidecars resolveW storeW "foobar" none =
      { status := 400, errMessage := "invalid block id: " ++ "foobar",
        data := [], contactedChain := false } ∧
    handleBlobSidecars resolveW storeW
        "0x1234567890abcdef1234567890abcdef1234567890abcdef1234567890abc111" none =
      { status := 404, errMessage := "Block not found",
        data := [], contactedChain := true } ∧
    handleBlobSidecars resolveW storeW "head" none =
      { status := 404, errMessage := "Block not found",
        data := [], contactedChain := true } := by
  refine ⟨?_, ?_, ?_⟩
  · exact handleBlobSidecars_error_spec.1 resolveW storeW "foobar" none (by decide)
  · exact handleBlobSidecars_error_spec.2.1 resolveW storeW
      "0x1234567890abcdef1234567890abcdef1234567890abcdef1234567890abc111" none
      (by decide) rfl
  · exact handleBlobSidecars_error_spec.2.2 resolveW storeW "head" none 12
      (by decide) rfl rfl

/-- C8: on a stored record, a request with an `indices` set answers 200 with
exactly the blob entries whose position index is in the requested set, in
their original order (the answer is a sublist of the record); positions with
no matching entry are silently omitted, and an empty intersection between
requested and available positions yields the empty sequence, never an
error. -/
theorem handleBlobSidecars_indices_spec (resolve : String → Option Nat)
    (store : Nat → Option (List Blob)) (raw : String) (root : Nat)
    (blobs : List Blob) (idx : List Nat)
    (hcls : classifyBlockId raw ≠ .invalid)
    (hres : resolve raw = some root)
    (hstore : store root = some blobs) :
    (handleBlobSidecars resolve store raw (some idx)).status = 200 ∧
    (handleBlobSidecars resolve store raw (some idx)).errMessage = "" ∧
    (handleBlobSidecars resolve store raw (some idx)).data =
      blobs.filter (fun b => decide (b.index ∈ idx)) ∧
    ((handleBlobSidecars resolve store raw (some idx)).data).Sublist blobs ∧
    (∀ b ∈ (handleBlobSidecars resolve store raw (some idx)).data, b.index ∈ idx) ∧
    ((∀ b ∈ blobs, b.index ∉ idx) →
      (handleBlobSidecars resolve store raw (some idx)).data = []) := by
  have hdata : (handleBlobSidecars resolve store raw (some idx)).data =
      blobs.filter (fun b => decide (b.index ∈ idx)) := by
    simp [handleBlobSidecars, hcls, hres, hstore, filterByIndices]
  refine ⟨?_, ?_, hdata, ?_, ?_, ?_⟩
  · simp [handleBlobSidecars, hcls, hres, hstore]
  · simp [handleBlobSidecars, hcls, hres, hstore]
  · rw [hdata]
    exact List.filter_sublist _
  · intro b hb
    rw [hdata] at hb
    exact of_decide_eq_true (List.mem_filter.mp hb).2
  · intro hnone
    rw [hdata]
    rw [List.filter_eq_nil_iff]
    intro b hb
    simp [hnone b hb]

/-- Witness for C8: requesting indices `{1}` on the concrete two-blob record
returns exactly the blob at position 1; requesting the out-of-range set
`{3}` returns an empty sequence with status 200. -/
theorem handleBlobSidecars_indices_spec_witness :
    (handleBlobSidecars resolveW storeW "1234" (some [1])).data = [⟨1, [2]⟩] ∧
    (handleBlobSidecars resolveW storeW "1234" (some [3])).status = 200 ∧
    (handleBlobSidecars resolveW storeW "1234" (some [3])).data = [] := by
  have h1 := handleBlobSidecars_indices_spec resolveW storeW "1234" 11 blobsW [1]
    (by decide) rfl rfl
  have h3 := handleBlobSidecars_indices_spec resolveW storeW "1234" 11 blobsW [3]
    (by decide) rfl rfl
  refine ⟨?_, h3.1, ?_⟩
  · rw [h1.2.2.1]
    decide
  · exact h3.2.2.2.2.2 (by decide)

/-- The binary encoding of a blob sequence is at least as long as the
sequence, so the sequence length is a valid decoding fuel. -/
theorem encodeBlobsBinary_length_le (bs : List Blob) :
    bs.length ≤ (encodeBlobsBinary bs).length := by
  induction bs with
  | nil => simp [encodeBlobsBinary]
  | cons b rest ih =>
    simp only [encodeBlobsBinary, encodeBlobBinary, List.length_append,
      List.length_cons]
    omega

/-- Decoding the binary encoding with sufficient fuel recovers the original
sequence. -/
theorem decodeBlobsBinaryAux_encode (bs : List Blob) :
    ∀ fuel, bs.length ≤ fuel →
      decodeBlobsBinaryAux fuel (encodeBlobsBinary bs) = some bs := by
  induction bs with
  | nil =>
    intro fuel h
    cases fuel <;> simp [encodeBlobsBinary, decodeBlobsBinaryAux]
  | cons b rest ih =>
    intro fuel h
    cases fuel with
    | zero => simp at h
    | succ f =>
      simp only [encodeBlobsBinary, encodeBlobBinary, List.cons_append,
        decodeBlobsBinaryAux]
      rw [if_neg (by simp)]
      simp only [List.append_eq]
      rw [List.drop_left, List.take_left]
      rw [ih f (by simpa using h)]

/-- Binary round-trip: decoding the compact binary encoding of any blob
sequence reproduces it exactly. -/
theorem decodeBlobsBinary_encode (bs : List Blob) :
    decodeBlobsBinary (encodeBlobsBinary bs) = some bs :=
  decodeBlobsBinaryAux_encode bs _ (encodeBlobsBinary_length_le bs)

/-- Decoding a list of encoded numbers recovers the numbers. -/
theorem decodeNums_map (ns : List Nat) : decodeNums (ns.map .num) = some ns := by
  induction ns with
  | nil => simp [decodeNums]
  | cons n rest ih => simp [decodeNums, decodeNum, ih]

/-- Textual round-trip for a single blob. -/
theorem decodeBlobJson_encode (b : Blob) :
    decodeBlobJson (encodeBlobJson b) = some b := by
  simp [encodeBlobJson, decodeBlobJson, decodeNums_map]

/-- Textual round-trip for a list of blobs. -/
theorem decodeBlobsJsonAux_map (bs : List Blob) :
    decodeBlobsJsonAux (bs.map encodeBlobJson) = some bs := by
  induction bs with
  | nil => simp [decodeBlobsJsonAux]
  | cons b rest ih => simp [decodeBlobsJsonAux, decodeBlobJson_encode, ih]

/-- Textual round-trip: decoding the textual structured encoding of any blob
sequence reproduces it under structural equality. -/
theorem decodeBlobsJson_encode (bs : List Blob) :
    decodeBlobsJson (encodeBlobsJson bs) = some bs := by
  simp [encodeBlobsJson, decodeBlobsJson, decodeBlobsJsonAux_map]

/-- C9: for every blob sequence, encoding a 200 response and decoding it
reproduces the original sequence exactly — in the compact binary form,
selected by an `Accept` header equal to the binary media type, byte-for-byte
per blob, and in the textual structured form, the default for every other
`Accept` value, under structural equality. -/
theorem contentNegotiation_roundTrip :
    (∀ (accept : String) (bs : List Blob),
       decodeResponse (encodeResponse accept bs) = some bs) ∧
    (∀ bs : List Blob,
       encodeResponse octetStreamMediaType bs = .binary (encodeBlobsBinary bs)) ∧
    (∀ (accept : String) (bs : List Blob), accept ≠ octetStreamMediaType →
       encodeResponse accept bs = .textual (encodeBlobsJson bs)) := by
  refine ⟨?_, ?_, ?_⟩
  · intro accept bs
    by_cases h : accept = octetStreamMediaType <;>
      simp [encodeResponse, decodeResponse, h, decodeBlobsBinary_encode,
        decodeBlobsJson_encode]
  · intro bs
    simp [encodeResponse]
  · intro accept bs h
    simp [encodeResponse, h]

/-- Witness for C9: the concrete two-blob record round-trips through the
textual default for a non-binary `Accept` value. -/
theorem contentNegotiation_roundTrip_witness :
    decodeResponse (encodeResponse "application/json" blobsW) = some blobsW ∧
    encodeResponse "application/json" blobsW = .textual (encodeBlobsJson blobsW) :=
  ⟨contentNegotiation_roundTrip.1 "application/json" blobsW,
   contentNegotiation_roundTrip.2.2 "application/json" blobsW (by decide)⟩

/-- An error-free live-tracking walk over a wholly-unstored ancestor chain
persists one block per fuel unit and never terminates on its own. -/
theorem processBlocks_walk_aux (c : Chain) :
    ∀ (n : Nat) (f : Nat → BeaconBlockHeader) (id : BlockId) (s : ArchState),
      s.fetchFail = [] →
      resolveId c id = some (f 0) →
      (∀ i, c.byHash (f i).parentRoot = some (f (i + 1))) →
      (∀ i, (f i).root ∉ s.stored) →
      (∀ i j, (f i).root = (f j).root → i = j) →
      processBlocksUntilKnownBlock c n id s =
        (none,
         { s with
             stored := s.stored ++ (List.range n).map (fun i => (f i).root),
             writes := s.writes ++ (List.range n).map (fun i => blobRecordOf c (f i)),
             sidecarFetches :=
               s.sidecarFetches ++ (List.range n).map (fun i => (f i).root) }) := by
  intro n
  induction n with
  | zero =>
    intro f id s hsched hres0 hres hst hinj
    simp [processBlocksUntilKnownBlock]
  | succ n ih =>
    intro f id s hsched hres0 hres hst hinj
    obtain ⟨st, w, sl, sf, ff⟩ := s
    obtain rfl : ff = [] := hsched
    have hmem0 : (f 0).root ∉ st := hst 0
    simp only [processBlocksUntilKnownBlock]
    simp only [persistBlobsForBlockToS3, fetchHeader, fetchSidecars, existsCheck,
      writeRecord, schedStep, hres0]
    simp only [ite_false, Bool.false_eq_true, if_false]
    simp [hmem0]
    have hstep := ih (fun i => f (i + 1)) (.hash (f 0).parentRoot)
      ⟨st ++ [(f 0).root], w ++ [blobRecordOf c (f 0)], sl, sf ++ [(f 0).root], []⟩
      rfl
      (by simpa [resolveId] using hres 0)
      (fun i => hres (i + 1))
      (fun i hmem => by
        rcases List.mem_append.mp hmem with h | h
        · exact hst (i + 1) h
        · have := hinj (i + 1) 0 (List.mem_singleton.mp h)
          omega)
      (fun i j heq => by
        have := hinj (i + 1) (j + 1) heq
        omega)
    refine hstep.trans ?_
    simp [blobRecordOf, List.range_succ_eq_map, List.map_map, Function.comp,
      Nat.succ_eq_add_one]

/-- C10: the live-tracking inner loop never compares any block hash against
the configured origin hash — `processBlocksUntilKnownBlock` does not even
receive the origin as an input (only `backfillBlobs` does), and its only
exits are a fetch-and-persist error (`aborted`) or `alreadyExisted = true`
(`converged`). Hence from a storage state containing none of head's
ancestors, an error-free poll walks the ancestor chain without any
historical bound: for every fuel `n` it has persisted `n` successive
ancestors and is still walking. -/
theorem processBlocksUntilKnownBlock_unbounded (c : Chain)
    (f : Nat → BeaconBlockHeader) (s : ArchState) (n : Nat)
    (hhead : f 0 = c.head)
    (hsched : s.fetchFail = [])
    (hres : ∀ i, c.byHash (f i).parentRoot = some (f (i + 1)))
    (hstored : s.stored = [])
    (hinj : ∀ i j, (f i).root = (f j).root → i = j) :
    processBlocksUntilKnownBlock c n .head s =
      (none,
       { s with
           stored := s.stored ++ (List.range n).map (fun i => (f i).root),
           writes := s.writes ++ (List.range n).map (fun i => blobRecordOf c (f i)),
           sidecarFetches :=
             s.sidecarFetches ++ (List.range n).map (fun i => (f i).root) }) :=
  processBlocks_walk_aux c n f .head s hsched (by simp [resolveId, hhead]) hres
    (by simp [hstored]) hinj

/-- Witness for C10: on the concrete unbounded chain with empty storage, a
poll with fuel 3 persists three successive ancestors and is still walking. -/
theorem processBlocksUntilKnownBlock_unbounded_witness :
    processBlocksUntilKnownBlock chainInf 3 .head emptyState =
      (none,
       { emptyState with
           stored := emptyState.stored ++ (List.range 3).map (fun i => (fInf i).root),
           writes := emptyState.writes ++
             (List.range 3).map (fun i => blobRecordOf chainInf (fInf i)),
           sidecarFetches := emptyState.sidecarFetches ++
             (List.range 3).map (fun i => (fInf i).root) }) :=
  processBlocksUntilKnownBlock_unbounded chainInf fInf emptyState 3 rfl rfl
    (fun _ => rfl) rfl (fun _ _ h => h)

end BlobArchiver
